import Mathlib

/-!
Verification development for the `lamedh_runtime` crate
(`src/lambda/src/lib.rs`): configuration loading, the runtime loop
(`run`, `run_simulated`, `incoming`, `run_inner`), and the wire codec
for the three control-endpoint requests.

The loop and `Config::from_env` are embedded directly from
`src/lambda/src/lib.rs`.  The crate's `types`, `requests` and `client`
modules are not part of the provided sources, so the context builder,
the diagnostic shape and the request encoders are modelled from the
specification (sections 3, 4.2, 4.3 and 6); every such definition is
marked `Modelled from the spec`.
-/

namespace LambdaRt

/-- JSON document model (the wire format used by the runtime for event
bodies and report bodies).  Numbers are modelled as integers, which
covers the payload shapes the specification exercises. -/
inductive Json where
  | null : Json
  | bool (b : Bool) : Json
  | num (n : Int) : Json
  | str (s : String) : Json
  | arr (elems : List Json) : Json
  | obj (fields : List (String × Json)) : Json

/-- Character for a single decimal digit value. -/
def digitOf (d : Nat) : Char :=
  match d with
  | 0 => '0' | 1 => '1' | 2 => '2' | 3 => '3' | 4 => '4'
  | 5 => '5' | 6 => '6' | 7 => '7' | 8 => '8' | 9 => '9'
  | _ => '*'

/-- Numeric value of a decimal digit character. -/
def valOf (c : Char) : Nat := c.toNat - 48

/-- Little-endian decimal digits of a natural number, with explicit fuel
so that the definition is structurally recursive (and hence evaluable
by the kernel). -/
def digitsRev : Nat → Nat → List Nat
  | 0, _ => []
  | f + 1, n => if n = 0 then [] else n % 10 :: digitsRev f (n / 10)

/-- Decimal rendering of a natural number (big-endian character list). -/
def renderNat (n : Nat) : List Char :=
  if n = 0 then ['0'] else (digitsRev (n + 1) n).reverse.map digitOf

/-- Decimal rendering of an integer. -/
def renderInt (n : Int) : List Char :=
  if n < 0 then '-' :: renderNat n.natAbs else renderNat n.natAbs

/-- JSON string-body escaping: `"` and `\` are backslash-escaped, all
other characters rendered verbatim. -/
def escList : List Char → List Char
  | [] => []
  | c :: t => (if c = '"' ∨ c = '\\' then ['\\', c] else [c]) ++ escList t

/-- Rendering of a JSON string literal, quotes included. -/
def renderStr (s : String) : List Char :=
  '"' :: escList s.data ++ ['"']

mutual

/-- Modelled from the spec: serialization of a payload "to the wire
format (JSON)" (section 4.3); this is the JSON document renderer. -/
def render : Json → List Char
  | .null => ("null" : String).data
  | .bool true => ("true" : String).data
  | .bool false => ("false" : String).data
  | .num n => renderInt n
  | .str s => renderStr s
  | .arr xs => '[' :: renderElems xs ++ [']']
  | .obj fs => '{' :: renderFields fs ++ ['}']

/-- Comma-separated rendering of array elements. -/
def renderElems : List Json → List Char
  | [] => []
  | [x] => render x
  | x :: y :: xs => render x ++ ',' :: renderElems (y :: xs)

/-- Comma-separated rendering of object fields. -/
def renderFields : List (String × Json) → List Char
  | [] => []
  | [(k, v)] => renderStr k ++ ':' :: render v
  | (k, v) :: f :: fs => renderStr k ++ ':' :: render v ++ ',' :: renderFields (f :: fs)

end

/-- Match a literal character sequence at the start of the input,
returning the remainder. -/
def stripLit : List Char → List Char → Option (List Char)
  | [], cs => some cs
  | _ :: _, [] => none
  | p :: ps, c :: cs => if c = p then stripLit ps cs else none

/-- Parse the body of a JSON string literal (the opening quote already
consumed), undoing the escaping of `escList`. -/
def parseStrChars : List Char → Option (List Char × List Char)
  | [] => none
  | '"' :: t => some ([], t)
  | '\\' :: c2 :: t2 =>
    if c2 = '"' ∨ c2 = '\\' then (parseStrChars t2).map (fun p => (c2 :: p.1, p.2))
    else none
  | c :: t => (parseStrChars t).map (fun p => (c :: p.1, p.2))

/-- Parse a decimal natural number (at least one digit). -/
def parseNatNum (cs : List Char) : Option (Nat × List Char) :=
  let digs := cs.takeWhile (fun c => c.isDigit)
  if digs = [] then none
  else some (Nat.ofDigits 10 (digs.map valOf).reverse, cs.dropWhile (fun c => c.isDigit))

/-- Parse a JSON number (optional leading minus sign). -/
def parseNum (cs : List Char) : Option (Json × List Char) :=
  match cs with
  | '-' :: t => (parseNatNum t).map (fun p => (Json.num (-(p.1 : Int)), p.2))
  | _ => (parseNatNum cs).map (fun p => (Json.num (p.1 : Int), p.2))

mutual

/-- Fuel-indexed JSON value parser (the deserializer for the wire
format). -/
def parseVal : Nat → List Char → Option (Json × List Char)
  | 0, _ => none
  | _ + 1, [] => none
  | fuel + 1, c :: t =>
    if c = 'n' then (stripLit ['u', 'l', 'l'] t).map (fun r => (Json.null, r))
    else if c = 't' then (stripLit ['r', 'u', 'e'] t).map (fun r => (Json.bool true, r))
    else if c = 'f' then (stripLit ['a', 'l', 's', 'e'] t).map (fun r => (Json.bool false, r))
    else if c = '"' then (parseStrChars t).map (fun p => (Json.str (String.mk p.1), p.2))
    else if c = '[' then (parseElems fuel t).map (fun p => (Json.arr p.1, p.2))
    else if c = '{' then (parseFields fuel t).map (fun p => (Json.obj p.1, p.2))
    else parseNum (c :: t)

/-- Parse the elements of a JSON array after the opening bracket. -/
def parseElems : Nat → List Char → Option (List Json × List Char)
  | 0, _ => none
  | _ + 1, [] => none
  | fuel + 1, c :: t =>
    if c = ']' then some ([], t)
    else
      match parseVal fuel (c :: t) with
      | none => none
      | some (v, r) =>
        match r with
        | ',' :: r2 => (parseElems fuel r2).map (fun p => (v :: p.1, p.2))
        | ']' :: r2 => some ([v], r2)
        | _ => none

/-- Parse the fields of a JSON object after the opening brace. -/
def parseFields : Nat → List Char → Option (List (String × Json) × List Char)
  | 0, _ => none
  | _ + 1, [] => none
  | fuel + 1, c :: t =>
    if c = '}' then some ([], t)
    else if c = '"' then
      match parseStrChars t with
      | none => none
      | some (k, r1) =>
        match r1 with
        | ':' :: r2 =>
          match parseVal fuel r2 with
          | none => none
          | some (v, r3) =>
            match r3 with
            | ',' :: r4 => (parseFields fuel r4).map (fun p => ((String.mk k, v) :: p.1, p.2))
            | '}' :: r4 => some ([(String.mk k, v)], r4)
            | _ => none
        | _ => none
    else none

end

/-- Modelled from the spec: deserialization of a request or event body
from the wire format (JSON); the whole input must be consumed. -/
def deserializeJson (cs : List Char) : Option Json :=
  match parseVal (cs.length + 1) cs with
  | some (v, []) => some v
  | _ => none

mutual

/-- Fuel sufficient for `parseVal` to parse the rendering of a value. -/
def needVal : Json → Nat
  | .null => 1
  | .bool _ => 1
  | .num _ => 1
  | .str _ => 1
  | .arr xs => 1 + needElems xs
  | .obj fs => 1 + needFields fs

/-- Fuel sufficient for `parseElems` on rendered array elements. -/
def needElems : List Json → Nat
  | [] => 1
  | x :: xs => 1 + max (needVal x) (needElems xs)

/-- Fuel sufficient for `parseFields` on rendered object fields. -/
def needFields : List (String × Json) → Nat
  | [] => 1
  | (_, v) :: fs => 1 + max (needVal v) (needFields fs)

end

/-- The first character of `r` (if any) does not satisfy `p`. -/
def headNot (p : Char → Bool) : List Char → Prop
  | [] => True
  | c :: _ => p c = false

/-- A parse boundary for numbers: the continuation does not start with
a decimal digit. -/
def boundaryOk (r : List Char) : Prop := headNot (fun c => c.isDigit) r

theorem headNot_nil (p : Char → Bool) : headNot p [] := trivial

theorem headNot_cons {p : Char → Bool} {c : Char} {t : List Char} (h : p c = false) :
    headNot p (c :: t) := h

theorem takeWhile_drop_append {p : Char → Bool} :
    ∀ (l r : List Char), (∀ c ∈ l, p c = true) → headNot p r →
      (l ++ r).takeWhile p = l ∧ (l ++ r).dropWhile p = r := by
  intro l
  induction l with
  | nil =>
    intro r _ hr
    cases r with
    | nil => simp
    | cons c t =>
      simp only [List.nil_append, List.takeWhile_cons, List.dropWhile_cons]
      simp [headNot] at hr
      simp [hr]
  | cons c t ih =>
    intro r hall hr
    have hc : p c = true := hall c (by simp)
    have ht := ih r (fun x hx => hall x (by simp [hx])) hr
    simp only [List.cons_append, List.takeWhile_cons, List.dropWhile_cons, hc]
    simp [ht.1, ht.2]

theorem digitOf_isDigit {d : Nat} (h : d < 10) : (digitOf d).isDigit = true := by
  interval_cases d <;> decide

theorem valOf_digitOf {d : Nat} (h : d < 10) : valOf (digitOf d) = d := by
  interval_cases d <;> decide

theorem ne_of_isDigit {c c' : Char} (h : c.isDigit = true) (h' : c'.isDigit = false) :
    c ≠ c' := by
  intro he
  rw [he, h'] at h
  cases h

theorem digitsRev_eq_digits : ∀ (f n : Nat), n ≤ f → digitsRev f n = Nat.digits 10 n := by
  intro f
  induction f with
  | zero =>
    intro n hn
    have : n = 0 := Nat.le_zero.mp hn
    subst this
    simp [digitsRev]
  | succ f ih =>
    intro n hn
    by_cases h0 : n = 0
    · subst h0
      simp [digitsRev]
    · have hdiv : n / 10 ≤ f := by
        have := Nat.div_lt_self (Nat.pos_of_ne_zero h0) (by norm_num : 1 < 10)
        omega
      rw [digitsRev, if_neg h0, ih _ hdiv,
        Nat.digits_def' (by norm_num : 1 < 10) (Nat.pos_of_ne_zero h0)]

theorem renderNat_all_digits (n : Nat) : ∀ c ∈ renderNat n, c.isDigit = true := by
  intro c hc
  by_cases h0 : n = 0
  · subst h0
    simp [renderNat] at hc
    subst hc
    decide
  · rw [renderNat, if_neg h0] at hc
    obtain ⟨d, hd, rfl⟩ := List.mem_map.mp hc
    have hd' : d ∈ Nat.digits 10 n := by
      rw [digitsRev_eq_digits (n + 1) n (Nat.le_succ n)] at hd
      exact List.mem_reverse.mp hd
    exact digitOf_isDigit (Nat.digits_lt_base (by norm_num) hd')

theorem renderNat_ne_nil (n : Nat) : renderNat n ≠ [] := by
  by_cases h0 : n = 0
  · subst h0
    simp [renderNat]
  · rw [renderNat, if_neg h0]
    simp only [ne_eq, List.map_eq_nil_iff, List.reverse_eq_nil_iff]
    rw [digitsRev_eq_digits (n + 1) n (Nat.le_succ n)]
    exact Nat.digits_ne_nil_iff_ne_zero.mpr h0

theorem renderNat_shape (n : Nat) :
    ∃ c t, renderNat n = c :: t ∧ c.isDigit = true := by
  cases h : renderNat n with
  | nil => exact absurd h (renderNat_ne_nil n)
  | cons c t =>
    refine ⟨c, t, rfl, ?_⟩
    have := renderNat_all_digits n c (by rw [h]; simp)
    exact this

theorem parseNatNum_render (n : Nat) (rest : List Char) (hb : boundaryOk rest) :
    parseNatNum (renderNat n ++ rest) = some (n, rest) := by
  obtain ⟨htake, hdrop⟩ :=
    takeWhile_drop_append (renderNat n) rest (renderNat_all_digits n) hb
  rw [parseNatNum]
  simp only [htake, hdrop, if_neg (renderNat_ne_nil n)]
  congr 1
  refine Prod.ext ?_ rfl
  show Nat.ofDigits 10 ((renderNat n).map valOf).reverse = n
  by_cases h0 : n = 0
  · subst h0
    decide
  · rw [renderNat, if_neg h0, digitsRev_eq_digits (n + 1) n (Nat.le_succ n)]
    rw [List.map_map]
    have hmap : (Nat.digits 10 n).reverse.map (valOf ∘ digitOf) = (Nat.digits 10 n).reverse := by
      conv_rhs => rw [← List.map_id ((Nat.digits 10 n).reverse)]
      apply List.map_congr_left
      intro d hd
      simp only [Function.comp_apply, id_eq]
      exact valOf_digitOf (Nat.digits_lt_base (by norm_num) (List.mem_reverse.mp hd))
    rw [hmap, List.reverse_reverse, Nat.ofDigits_digits]

theorem parseNum_render (n : Int) (rest : List Char) (hb : boundaryOk rest) :
    parseNum (renderInt n ++ rest) = some (Json.num n, rest) := by
  by_cases hneg : n < 0
  · rw [renderInt, if_pos hneg]
    have h1 : parseNum ('-' :: (renderNat n.natAbs ++ rest))
        = (parseNatNum (renderNat n.natAbs ++ rest)).map
            (fun p => (Json.num (-(p.1 : Int)), p.2)) := rfl
    show parseNum ('-' :: (renderNat n.natAbs ++ rest)) = _
    rw [h1, parseNatNum_render n.natAbs rest hb, Option.map_some']
    have h2 : (-(n.natAbs : Int)) = n := by omega
    rw [h2]
  · rw [renderInt, if_neg hneg]
    obtain ⟨c, t, hsh, hdig⟩ := renderNat_shape n.natAbs
    have hne : c ≠ '-' := ne_of_isDigit hdig (by decide)
    have hres : parseNatNum (renderNat n.natAbs ++ rest) = some (n.natAbs, rest) :=
      parseNatNum_render n.natAbs rest hb
    rw [hsh, List.cons_append, parseNum.eq_def]
    split
    · rename_i t' heq
      injection heq with hh _
      exact absurd hh hne
    · rw [show (c :: (t ++ rest)) = renderNat n.natAbs ++ rest from by
        rw [hsh, List.cons_append], hres, Option.map_some']
      have h2 : ((n.natAbs : Nat) : Int) = n := by omega
      rw [h2]

theorem parseStrChars_cons (c : Char) (t : List Char) (hq : c ≠ '"') (hb : c ≠ '\\') :
    parseStrChars (c :: t) = (parseStrChars t).map (fun p => (c :: p.1, p.2)) := by
  rw [parseStrChars.eq_def]
  split
  · rename_i heq
    cases heq
  · rename_i t' heq
    injection heq with h1 _
    exact absurd h1 hq
  · rename_i c2 t2 heq
    injection heq with h1 _
    exact absurd h1 hb
  · rename_i c' t' _ _ heq
    injection heq with h3 h4
    subst h3
    subst h4
    rfl

theorem boundary_nil : boundaryOk [] := trivial

theorem boundary_cons (c : Char) (r : List Char) (h : c.isDigit = false) :
    boundaryOk (c :: r) := h

theorem parseVal_other (f : Nat) (c : Char) (t : List Char)
    (h1 : c ≠ 'n') (h2 : c ≠ 't') (h3 : c ≠ 'f') (h4 : c ≠ '"')
    (h5 : c ≠ '[') (h6 : c ≠ '{') :
    parseVal (f + 1) (c :: t) = parseNum (c :: t) := by
  have e : parseVal (f + 1) (c :: t)
      = (if c = 'n' then (stripLit ['u', 'l', 'l'] t).map (fun r => (Json.null, r))
         else if c = 't' then (stripLit ['r', 'u', 'e'] t).map (fun r => (Json.bool true, r))
         else if c = 'f' then (stripLit ['a', 'l', 's', 'e'] t).map (fun r => (Json.bool false, r))
         else if c = '"' then (parseStrChars t).map (fun p => (Json.str (String.mk p.1), p.2))
         else if c = '[' then (parseElems f t).map (fun p => (Json.arr p.1, p.2))
         else if c = '{' then (parseFields f t).map (fun p => (Json.obj p.1, p.2))
         else parseNum (c :: t)) := rfl
  rw [e, if_neg h1, if_neg h2, if_neg h3, if_neg h4, if_neg h5, if_neg h6]

theorem parseElems_cons (f : Nat) (c : Char) (t : List Char) (h : c ≠ ']') :
    parseElems (f + 1) (c :: t)
      = (match parseVal f (c :: t) with
         | none => none
         | some (v, r) =>
           match r with
           | ',' :: r2 => (parseElems f r2).map (fun p => (v :: p.1, p.2))
           | ']' :: r2 => some ([v], r2)
           | _ => none) := by
  have e : parseElems (f + 1) (c :: t)
      = (if c = ']' then some ([], t)
         else
           match parseVal f (c :: t) with
           | none => none
           | some (v, r) =>
             match r with
             | ',' :: r2 => (parseElems f r2).map (fun p => (v :: p.1, p.2))
             | ']' :: r2 => some ([v], r2)
             | _ => none) := rfl
  rw [e, if_neg h]

theorem renderInt_shape (m : Int) :
    ∃ c t, renderInt m = c :: t ∧ (c = '-' ∨ c.isDigit = true) := by
  by_cases h : m < 0
  · rw [renderInt, if_pos h]
    exact ⟨'-', renderNat m.natAbs, rfl, Or.inl rfl⟩
  · rw [renderInt, if_neg h]
    obtain ⟨c, t, hsh, hd⟩ := renderNat_shape m.natAbs
    exact ⟨c, t, hsh, Or.inr hd⟩

theorem render_shape (v : Json) :
    ∃ c t, render v = c :: t ∧
      (c = 'n' ∨ c = 't' ∨ c = 'f' ∨ c = '"' ∨ c = '[' ∨ c = '{' ∨ c = '-' ∨
        c.isDigit = true) := by
  cases v with
  | null => exact ⟨'n', _, rfl, Or.inl rfl⟩
  | bool b =>
    cases b with
    | true => exact ⟨'t', _, rfl, Or.inr (Or.inl rfl)⟩
    | false => exact ⟨'f', _, rfl, Or.inr (Or.inr (Or.inl rfl))⟩
  | num m =>
    obtain ⟨c, t, hsh, hd⟩ := renderInt_shape m
    refine ⟨c, t, hsh, ?_⟩
    rcases hd with rfl | hdig
    · exact Or.inr (Or.inr (Or.inr (Or.inr (Or.inr (Or.inr (Or.inl rfl))))))
    · exact Or.inr (Or.inr (Or.inr (Or.inr (Or.inr (Or.inr (Or.inr hdig))))))
  | str s => exact ⟨'"', _, rfl, Or.inr (Or.inr (Or.inr (Or.inl rfl)))⟩
  | arr xs => exact ⟨'[', _, rfl, Or.inr (Or.inr (Or.inr (Or.inr (Or.inl rfl))))⟩
  | obj fs => exact ⟨'{', _, rfl, Or.inr (Or.inr (Or.inr (Or.inr (Or.inr (Or.inl rfl)))))⟩

theorem render_cons_ne (v : Json) :
    ∃ c t, render v = c :: t ∧ c ≠ ']' ∧ c ≠ ',' ∧ c ≠ '}' := by
  obtain ⟨c, t, hsh, hd⟩ := render_shape v
  refine ⟨c, t, hsh, ?_⟩
  rcases hd with rfl | rfl | rfl | rfl | rfl | rfl | rfl | hdig
  · exact ⟨by decide, by decide, by decide⟩
  · exact ⟨by decide, by decide, by decide⟩
  · exact ⟨by decide, by decide, by decide⟩
  · exact ⟨by decide, by decide, by decide⟩
  · exact ⟨by decide, by decide, by decide⟩
  · exact ⟨by decide, by decide, by decide⟩
  · exact ⟨by decide, by decide, by decide⟩
  · exact ⟨ne_of_isDigit hdig (by decide), ne_of_isDigit hdig (by decide),
      ne_of_isDigit hdig (by decide)⟩

theorem parseStrChars_round (l : List Char) (rest : List Char) :
    parseStrChars (escList l ++ '"' :: rest) = some (l, rest) := by
  induction l with
  | nil => rfl
  | cons c t ih =>
    by_cases h : c = '"' ∨ c = '\\'
    · rw [escList, if_pos h]
      show parseStrChars ('\\' :: c :: (escList t ++ '"' :: rest)) = _
      have h1 : parseStrChars ('\\' :: c :: (escList t ++ '"' :: rest))
          = if c = '"' ∨ c = '\\' then
              (parseStrChars (escList t ++ '"' :: rest)).map (fun p => (c :: p.1, p.2))
            else none := rfl
      rw [h1, if_pos h, ih]
      rfl
    · have hq : c ≠ '"' := fun he => h (Or.inl he)
      have hb : c ≠ '\\' := fun he => h (Or.inr he)
      rw [escList, if_neg h]
      show parseStrChars (c :: (escList t ++ '"' :: rest)) = _
      rw [parseStrChars_cons c _ hq hb, ih]
      rfl

theorem mk_data (s : String) : String.mk s.data = s := rfl

theorem json_sizeOf_pos (v : Json) : 0 < sizeOf v := by
  cases v <;> simp_arith

theorem list_json_sizeOf_pos (xs : List Json) : 0 < sizeOf xs := by
  cases xs <;> simp_arith

theorem list_field_sizeOf_pos (fs : List (String × Json)) : 0 < sizeOf fs := by
  cases fs <;> simp_arith

theorem parse_render_rec : ∀ n : Nat,
    (∀ v : Json, sizeOf v ≤ n → ∀ fuel rest, needVal v ≤ fuel → boundaryOk rest →
      parseVal fuel (render v ++ rest) = some (v, rest)) ∧
    (∀ xs : List Json, sizeOf xs ≤ n → ∀ fuel rest, needElems xs ≤ fuel →
      parseElems fuel (renderElems xs ++ ']' :: rest) = some (xs, rest)) ∧
    (∀ fs : List (String × Json), sizeOf fs ≤ n → ∀ fuel rest, needFields fs ≤ fuel →
      parseFields fuel (renderFields fs ++ '}' :: rest) = some (fs, rest)) := by
  intro n
  induction n with
  | zero =>
    refine ⟨?_, ?_, ?_⟩
    · intro v hsz
      exact absurd hsz (by have := json_sizeOf_pos v; omega)
    · intro xs hsz
      exact absurd hsz (by have := list_json_sizeOf_pos xs; omega)
    · intro fs hsz
      exact absurd hsz (by have := list_field_sizeOf_pos fs; omega)
  | succ n ih =>
    obtain ⟨ihV, ihE, ihF⟩ := ih
    refine ⟨?_, ?_, ?_⟩
    · -- values
      intro v hsz fuel rest hfuel hb
      cases v with
      | null =>
        have h1 : needVal Json.null = 1 := rfl
        obtain ⟨f, rfl⟩ : ∃ f, fuel = f + 1 := ⟨fuel - 1, by omega⟩
        rfl
      | bool b =>
        have h1 : needVal (Json.bool b) = 1 := rfl
        obtain ⟨f, rfl⟩ : ∃ f, fuel = f + 1 := ⟨fuel - 1, by omega⟩
        cases b <;> rfl
      | num m =>
        have h1 : needVal (Json.num m) = 1 := rfl
        obtain ⟨f, rfl⟩ : ∃ f, fuel = f + 1 := ⟨fuel - 1, by omega⟩
        obtain ⟨c, t, hsh, hd⟩ := renderInt_shape m
        have hs : c ≠ 'n' ∧ c ≠ 't' ∧ c ≠ 'f' ∧ c ≠ '"' ∧ c ≠ '[' ∧ c ≠ '{' := by
          rcases hd with rfl | hdig
          · exact ⟨by decide, by decide, by decide, by decide, by decide, by decide⟩
          · exact ⟨ne_of_isDigit hdig (by decide), ne_of_isDigit hdig (by decide),
              ne_of_isDigit hdig (by decide), ne_of_isDigit hdig (by decide),
              ne_of_isDigit hdig (by decide), ne_of_isDigit hdig (by decide)⟩
        show parseVal (f + 1) (renderInt m ++ rest) = some (Json.num m, rest)
        rw [hsh, List.cons_append,
          parseVal_other f c _ hs.1 hs.2.1 hs.2.2.1 hs.2.2.2.1 hs.2.2.2.2.1 hs.2.2.2.2.2,
          ← List.cons_append, ← hsh]
        exact parseNum_render m rest hb
      | str s =>
        have h1 : needVal (Json.str s) = 1 := rfl
        obtain ⟨f, rfl⟩ : ∃ f, fuel = f + 1 := ⟨fuel - 1, by omega⟩
        show parseVal (f + 1) (('"' :: (escList s.data ++ ['"'])) ++ rest)
          = some (Json.str s, rest)
        simp only [List.cons_append, List.append_assoc, List.singleton_append, List.nil_append]
        rw [show parseVal (f + 1) ('"' :: (escList s.data ++ '"' :: rest))
            = (parseStrChars (escList s.data ++ '"' :: rest)).map
                (fun p => (Json.str (String.mk p.1), p.2)) from rfl,
          parseStrChars_round s.data rest]
        rfl
      | arr xs =>
        have h1 : needVal (Json.arr xs) = 1 + needElems xs := rfl
        obtain ⟨f, rfl⟩ : ∃ f, fuel = f + 1 := ⟨fuel - 1, by omega⟩
        have hne : needElems xs ≤ f := by omega
        have hszxs : sizeOf xs ≤ n := by
          have h2 : sizeOf (Json.arr xs) = 1 + sizeOf xs := by simp
          omega
        show parseVal (f + 1) (('[' :: (renderElems xs ++ [']'])) ++ rest)
          = some (Json.arr xs, rest)
        simp only [List.cons_append, List.append_assoc, List.singleton_append, List.nil_append]
        rw [show parseVal (f + 1) ('[' :: (renderElems xs ++ ']' :: rest))
            = (parseElems f (renderElems xs ++ ']' :: rest)).map
                (fun p => (Json.arr p.1, p.2)) from rfl,
          ihE xs hszxs f rest hne]
        rfl
      | obj fs =>
        have h1 : needVal (Json.obj fs) = 1 + needFields fs := rfl
        obtain ⟨f, rfl⟩ : ∃ f, fuel = f + 1 := ⟨fuel - 1, by omega⟩
        have hne : needFields fs ≤ f := by omega
        have hszfs : sizeOf fs ≤ n := by
          have h2 : sizeOf (Json.obj fs) = 1 + sizeOf fs := by simp
          omega
        show parseVal (f + 1) (('{' :: (renderFields fs ++ ['}'])) ++ rest)
          = some (Json.obj fs, rest)
        simp only [List.cons_append, List.append_assoc, List.singleton_append, List.nil_append]
        rw [show parseVal (f + 1) ('{' :: (renderFields fs ++ '}' :: rest))
            = (parseFields f (renderFields fs ++ '}' :: rest)).map
                (fun p => (Json.obj p.1, p.2)) from rfl,
          ihF fs hszfs f rest hne]
        rfl
    · -- array elements
      intro xs hsz fuel rest hfuel
      cases xs with
      | nil =>
        have h1 : needElems ([] : List Json) = 1 := rfl
        obtain ⟨f, rfl⟩ : ∃ f, fuel = f + 1 := ⟨fuel - 1, by omega⟩
        rfl
      | cons x xs' =>
        have h1 : needElems (x :: xs') = 1 + max (needVal x) (needElems xs') := rfl
        obtain ⟨f, rfl⟩ : ∃ f, fuel = f + 1 := ⟨fuel - 1, by omega⟩
        have hM : max (needVal x) (needElems xs') ≤ f := by omega
        have hx : needVal x ≤ f := le_trans (le_max_left _ _) hM
        have hxs : needElems xs' ≤ f := le_trans (le_max_right _ _) hM
        have hszx : sizeOf x ≤ n := by
          have h2 : sizeOf (x :: xs') = 1 + sizeOf x + sizeOf xs' := by simp
          have := list_json_sizeOf_pos xs'
          omega
        have hszxs : sizeOf xs' ≤ n := by
          have h2 : sizeOf (x :: xs') = 1 + sizeOf x + sizeOf xs' := by simp
          have := json_sizeOf_pos x
          omega
        obtain ⟨c, t, hsh, hne1, hne2, hne3⟩ := render_cons_ne x
        cases xs' with
        | nil =>
          show parseElems (f + 1) (render x ++ ']' :: rest) = some ([x], rest)
          rw [hsh, List.cons_append, parseElems_cons f c _ hne1, ← List.cons_append, ← hsh,
            ihV x hszx f (']' :: rest) hx (boundary_cons _ _ (by decide))]
          rfl
        | cons y ys =>
          show parseElems (f + 1)
              ((render x ++ ',' :: renderElems (y :: ys)) ++ ']' :: rest)
            = some (x :: y :: ys, rest)
          simp only [List.cons_append, List.append_assoc]
          rw [hsh, List.cons_append, parseElems_cons f c _ hne1, ← List.cons_append, ← hsh,
            ihV x hszx f (',' :: (renderElems (y :: ys) ++ ']' :: rest)) hx
              (boundary_cons _ _ (by decide))]
          show (parseElems f (renderElems (y :: ys) ++ ']' :: rest)).map
              (fun p => (x :: p.1, p.2)) = some (x :: y :: ys, rest)
          rw [ihE (y :: ys) hszxs f rest hxs]
          rfl
    · -- object fields
      intro fs hsz fuel rest hfuel
      cases fs with
      | nil =>
        have h1 : needFields ([] : List (String × Json)) = 1 := rfl
        obtain ⟨f, rfl⟩ : ∃ f, fuel = f + 1 := ⟨fuel - 1, by omega⟩
        rfl
      | cons kv fs' =>
        obtain ⟨k, v⟩ := kv
        have h1 : needFields ((k, v) :: fs') = 1 + max (needVal v) (needFields fs') := rfl
        obtain ⟨f, rfl⟩ : ∃ f, fuel = f + 1 := ⟨fuel - 1, by omega⟩
        have hM : max (needVal v) (needFields fs') ≤ f := by omega
        have hv : needVal v ≤ f := le_trans (le_max_left _ _) hM
        have hfs : needFields fs' ≤ f := le_trans (le_max_right _ _) hM
        have hszv : sizeOf v ≤ n := by
          have h2 : sizeOf ((k, v) :: fs') = 1 + (1 + sizeOf k + sizeOf v) + sizeOf fs' := by
            simp
          have := list_field_sizeOf_pos fs'
          omega
        have hszfs : sizeOf fs' ≤ n := by
          have h2 : sizeOf ((k, v) :: fs') = 1 + (1 + sizeOf k + sizeOf v) + sizeOf fs' := by
            simp
          have := json_sizeOf_pos v
          omega
        cases fs' with
        | nil =>
          show parseFields (f + 1)
              ((('"' :: (escList k.data ++ ['"'])) ++ ':' :: render v) ++ '}' :: rest)
            = some ([(k, v)], rest)
          simp only [List.cons_append, List.append_assoc, List.singleton_append, List.nil_append]
          rw [show parseFields (f + 1)
                ('"' :: (escList k.data ++ '"' :: ':' :: (render v ++ '}' :: rest)))
              = (match parseStrChars (escList k.data ++ '"' :: ':' :: (render v ++ '}' :: rest)) with
                 | none => none
                 | some (kk, r1) =>
                   match r1 with
                   | ':' :: r2 =>
                     match parseVal f r2 with
                     | none => none
                     | some (vv, r3) =>
                       match r3 with
                       | ',' :: r4 => (parseFields f r4).map
                           (fun p => ((String.mk kk, vv) :: p.1, p.2))
                       | '}' :: r4 => some ([(String.mk kk, vv)], r4)
                       | _ => none
                   | _ => none) from rfl,
            parseStrChars_round k.data (':' :: (render v ++ '}' :: rest))]
          show (match parseVal f (render v ++ '}' :: rest) with
                | none => none
                | some (vv, r3) =>
                  match r3 with
                  | ',' :: r4 => (parseFields f r4).map
                      (fun p => ((String.mk k.data, vv) :: p.1, p.2))
                  | '}' :: r4 => some ([(String.mk k.data, vv)], r4)
                  | _ => none) = some ([(k, v)], rest)
          rw [ihV v hszv f ('}' :: rest) hv (boundary_cons _ _ (by decide))]
          rfl
        | cons kv2 fs2 =>
          show parseFields (f + 1)
              ((('"' :: (escList k.data ++ ['"'])) ++ ':' :: render v
                  ++ ',' :: renderFields (kv2 :: fs2)) ++ '}' :: rest)
            = some ((k, v) :: kv2 :: fs2, rest)
          simp only [List.cons_append, List.append_assoc, List.singleton_append, List.nil_append]
          rw [show parseFields (f + 1)
                ('"' :: (escList k.data
                    ++ '"' :: ':' :: (render v ++ ',' :: (renderFields (kv2 :: fs2) ++ '}' :: rest))))
              = (match parseStrChars (escList k.data
                    ++ '"' :: ':' :: (render v ++ ',' :: (renderFields (kv2 :: fs2) ++ '}' :: rest))) with
                 | none => none
                 | some (kk, r1) =>
                   match r1 with
                   | ':' :: r2 =>
                     match parseVal f r2 with
                     | none => none
                     | some (vv, r3) =>
                       match r3 with
                       | ',' :: r4 => (parseFields f r4).map
                           (fun p => ((String.mk kk, vv) :: p.1, p.2))
                       | '}' :: r4 => some ([(String.mk kk, vv)], r4)
                       | _ => none
                   | _ => none) from rfl,
            parseStrChars_round k.data
              (':' :: (render v ++ ',' :: (renderFields (kv2 :: fs2) ++ '}' :: rest)))]
          show (match parseVal f (render v ++ ',' :: (renderFields (kv2 :: fs2) ++ '}' :: rest)) with
                | none => none
                | some (vv, r3) =>
                  match r3 with
                  | ',' :: r4 => (parseFields f r4).map
                      (fun p => ((String.mk k.data, vv) :: p.1, p.2))
                  | '}' :: r4 => some ([(String.mk k.data, vv)], r4)
                  | _ => none) = some ((k, v) :: kv2 :: fs2, rest)
          rw [ihV v hszv f (',' :: (renderFields (kv2 :: fs2) ++ '}' :: rest)) hv
            (boundary_cons _ _ (by decide))]
          show (parseFields f (renderFields (kv2 :: fs2) ++ '}' :: rest)).map
              (fun p => ((String.mk k.data, v) :: p.1, p.2)) = some ((k, v) :: kv2 :: fs2, rest)
          rw [ihF (kv2 :: fs2) hszfs f rest hfs]
          rfl

theorem need_le_rec : ∀ n : Nat,
    (∀ v : Json, sizeOf v ≤ n → needVal v ≤ (render v).length + 1) ∧
    (∀ xs : List Json, sizeOf xs ≤ n → needElems xs ≤ (renderElems xs).length + 2) ∧
    (∀ fs : List (String × Json), sizeOf fs ≤ n →
      needFields fs ≤ (renderFields fs).length + 2) := by
  intro n
  induction n with
  | zero =>
    refine ⟨?_, ?_, ?_⟩
    · intro v hsz
      exact absurd hsz (by have := json_sizeOf_pos v; omega)
    · intro xs hsz
      exact absurd hsz (by have := list_json_sizeOf_pos xs; omega)
    · intro fs hsz
      exact absurd hsz (by have := list_field_sizeOf_pos fs; omega)
  | succ n ih =>
    obtain ⟨ihV, ihE, ihF⟩ := ih
    refine ⟨?_, ?_, ?_⟩
    · intro v hsz
      cases v with
      | null => simp [needVal]
      | bool b => simp [needVal]
      | num m => simp [needVal]
      | str s => simp [needVal]
      | arr xs =>
        have hszxs : sizeOf xs ≤ n := by
          have h2 : sizeOf (Json.arr xs) = 1 + sizeOf xs := by simp
          omega
        have hE := ihE xs hszxs
        have h1 : needVal (Json.arr xs) = 1 + needElems xs := rfl
        have h2 : (render (Json.arr xs)).length = (renderElems xs).length + 2 := by
          show ('[' :: (renderElems xs ++ [']'])).length = _
          simp
        omega
      | obj fs =>
        have hszfs : sizeOf fs ≤ n := by
          have h2 : sizeOf (Json.obj fs) = 1 + sizeOf fs := by simp
          omega
        have hF := ihF fs hszfs
        have h1 : needVal (Json.obj fs) = 1 + needFields fs := rfl
        have h2 : (render (Json.obj fs)).length = (renderFields fs).length + 2 := by
          show ('{' :: (renderFields fs ++ ['}'])).length = _
          simp
        omega
    · intro xs hsz
      cases xs with
      | nil => simp [needElems]
      | cons x xs' =>
        have hszx : sizeOf x ≤ n := by
          have h2 : sizeOf (x :: xs') = 1 + sizeOf x + sizeOf xs' := by simp
          have := list_json_sizeOf_pos xs'
          omega
        have hszxs : sizeOf xs' ≤ n := by
          have h2 : sizeOf (x :: xs') = 1 + sizeOf x + sizeOf xs' := by simp
          have := json_sizeOf_pos x
          omega
        have hx := ihV x hszx
        have hxs := ihE xs' hszxs
        have h1 : needElems (x :: xs') = 1 + max (needVal x) (needElems xs') := rfl
        cases xs' with
        | nil =>
          have h2 : renderElems [x] = render x := rfl
          have h3 : needElems ([] : List Json) = 1 := rfl
          have h4 := Nat.le_max_left (needVal x) (needElems ([] : List Json))
          have h5 : max (needVal x) (needElems ([] : List Json)) ≤
              max ((render x).length + 1) 1 := by
            apply max_le_max
            · exact hx
            · exact le_of_eq h3
          have h6 : max ((render x).length + 1) 1 = (render x).length + 1 := by
            apply Nat.max_eq_left
            omega
          rw [h2]
          omega
        | cons y ys =>
          have h2 : renderElems (x :: y :: ys) = render x ++ ',' :: renderElems (y :: ys) := rfl
          have h3 : (renderElems (x :: y :: ys)).length
              = (render x).length + 1 + (renderElems (y :: ys)).length := by
            rw [h2]
            simp
            omega
          have h5 : max (needVal x) (needElems (y :: ys))
              ≤ (render x).length + (renderElems (y :: ys)).length + 2 := by
            apply max_le_iff.mpr
            constructor
            · omega
            · omega
          omega
    · intro fs hsz
      cases fs with
      | nil => simp [needFields]
      | cons kv fs' =>
        obtain ⟨k, v⟩ := kv
        have hszv : sizeOf v ≤ n := by
          have h2 : sizeOf ((k, v) :: fs') = 1 + (1 + sizeOf k + sizeOf v) + sizeOf fs' := by
            simp
          have := list_field_sizeOf_pos fs'
          omega
        have hszfs : sizeOf fs' ≤ n := by
          have h2 : sizeOf ((k, v) :: fs') = 1 + (1 + sizeOf k + sizeOf v) + sizeOf fs' := by
            simp
          have := json_sizeOf_pos v
          omega
        have hv := ihV v hszv
        have hfs := ihF fs' hszfs
        have h1 : needFields ((k, v) :: fs') = 1 + max (needVal v) (needFields fs') := rfl
        cases fs' with
        | nil =>
          have h2 : renderFields [(k, v)] = renderStr k ++ ':' :: render v := rfl
          have h3 : (renderFields [(k, v)]).length
              = (renderStr k).length + 1 + (render v).length := by
            rw [h2]
            simp
            omega
          have h4 : needFields ([] : List (String × Json)) = 1 := rfl
          have h5 : max (needVal v) (needFields ([] : List (String × Json)))
              ≤ (render v).length + 1 := by
            apply max_le_iff.mpr
            omega
          omega
        | cons kv2 fs2 =>
          have h2 : renderFields ((k, v) :: kv2 :: fs2)
              = renderStr k ++ ':' :: render v ++ ',' :: renderFields (kv2 :: fs2) := rfl
          have h3 : (renderFields ((k, v) :: kv2 :: fs2)).length
              = (renderStr k).length + 1 + (render v).length + 1
                + (renderFields (kv2 :: fs2)).length := by
            rw [h2]
            simp
            omega
          have h5 : max (needVal v) (needFields (kv2 :: fs2))
              ≤ (render v).length + (renderFields (kv2 :: fs2)).length + 2 := by
            apply max_le_iff.mpr
            omega
          omega

theorem parseVal_render (v : Json) (fuel : Nat) (rest : List Char)
    (hfuel : needVal v ≤ fuel) (hb : boundaryOk rest) :
    parseVal fuel (render v ++ rest) = some (v, rest) :=
  (parse_render_rec (sizeOf v)).1 v le_rfl fuel rest hfuel hb

/-- Serialize-then-deserialize round trip for the JSON wire format. -/
theorem deserializeJson_render (v : Json) : deserializeJson (render v) = some v := by
  have hfuel : needVal v ≤ (render v).length + 1 :=
    (need_le_rec (sizeOf v)).1 v le_rfl
  have h := parseVal_render v ((render v).length + 1) [] hfuel boundary_nil
  rw [List.append_nil] at h
  rw [deserializeJson, h]

/-- The crate's default log group (`DEFAULT_LOG_GROUP` in `lib.rs`). -/
def DEFAULT_LOG_GROUP : String := "/aws/lambda/Functions"

/-- The crate's default log stream (`DEFAULT_LOG_STREAM` in `lib.rs`). -/
def DEFAULT_LOG_STREAM : String := "$LATEST"

/-- The error cases the runtime can produce (the shallow embedding of
the crate's boxed dynamic `Error` values, restricted to the error
sources that actually occur in the embedded code). -/
inductive RtError where
  | varNotPresent (name : String)
  | intParse (input : String)
  | headerMissing (name : String)
  | headerMalformed (name : String)
  | bodyDeserialize
  | transport (msg : String)
deriving DecidableEq

/-- Parse a nonempty all-digit character list as a natural number
(accumulator form). -/
def natFromCharsAux : Nat → List Char → Option Nat
  | acc, [] => some acc
  | acc, c :: t => if c.isDigit then natFromCharsAux (acc * 10 + valOf c) t else none

/-- Parse a nonempty all-digit character list as a natural number. -/
def natFromChars : List Char → Option Nat
  | [] => none
  | cs => natFromCharsAux 0 cs

/-- Unsigned decimal string parse (Rust `str::parse::<u64>` shape,
within the range the spec exercises). -/
def strToNat (s : String) : Option Nat := natFromChars s.data

/-- Signed decimal string parse: an optional sign followed by
digits. -/
def strToInt (s : String) : Option Int :=
  match s.data with
  | '-' :: t => (natFromChars t).map (fun n => -(n : Int))
  | '+' :: t => (natFromChars t).map (fun n => (n : Int))
  | cs => (natFromChars cs).map (fun n => (n : Int))

/-- Rust `str::parse::<i32>`: an optional sign followed by digits,
rejecting values outside the 32-bit signed range. -/
def parseI32 (s : String) : Option Int :=
  match strToInt s with
  | none => none
  | some n => if -(2 ^ 31) ≤ n ∧ n < 2 ^ 31 then some n else none

/-- `Config` from `lib.rs`: configuration derived from environment
variables. -/
structure Config where
  endpoint : String
  function_name : String
  memory : Int
  version : String
  log_stream : String
  log_group : String
deriving DecidableEq

/-- The `Default` derive for `Config` (empty strings, zero memory). -/
def defaultConfig : Config := ⟨"", "", 0, "", "", ""⟩

/-- The process environment, as a snapshot mapping variable names to
their values. -/
def EnvMap : Type := String → Option String

/-- `Config::from_env` from `lib.rs`: reads the six environment
entries in declaration order; the four required ones fail the whole
read when absent (and the memory size also when it does not parse as
an `i32`), the two log entries fall back to their defaults. -/
def Config.from_env (env : EnvMap) : Except RtError Config :=
  match env "AWS_LAMBDA_RUNTIME_API" with
  | none => .error (.varNotPresent "AWS_LAMBDA_RUNTIME_API")
  | some endpoint =>
    match env "AWS_LAMBDA_FUNCTION_NAME" with
    | none => .error (.varNotPresent "AWS_LAMBDA_FUNCTION_NAME")
    | some function_name =>
      match env "AWS_LAMBDA_FUNCTION_MEMORY_SIZE" with
      | none => .error (.varNotPresent "AWS_LAMBDA_FUNCTION_MEMORY_SIZE")
      | some memStr =>
        match parseI32 memStr with
        | none => .error (.intParse memStr)
        | some memory =>
          match env "AWS_LAMBDA_FUNCTION_VERSION" with
          | none => .error (.varNotPresent "AWS_LAMBDA_FUNCTION_VERSION")
          | some version =>
            .ok ⟨endpoint, function_name, memory, version,
              (env "AWS_LAMBDA_LOG_STREAM_NAME").getD DEFAULT_LOG_STREAM,
              (env "AWS_LAMBDA_LOG_GROUP_NAME").getD DEFAULT_LOG_GROUP⟩

/-- Modelled from the spec (section 3): the per-invocation execution
context built from response headers plus the shared `Config`. -/
structure Context where
  request_id : String
  deadline : Nat
  invoked_function_arn : String
  trace_id : Option String
  client_context : Option Json
  identity : Option Json
  env_config : Config

/-- First-match lookup of a header value by name. -/
def lookupHeader : List (String × String) → String → Option String
  | [], _ => none
  | (k, v) :: t, name => if k = name then some v else lookupHeader t name

/-- Modelled from the spec (section 4.2): an optional JSON-encoded
header; absence yields `none`, an unparsable value is a malformed
header. -/
def parseOptJsonHeader (v : Option String) (name : String) : Except RtError (Option Json) :=
  match v with
  | none => .ok none
  | some s =>
    match deserializeJson s.data with
    | some j => .ok (some j)
    | none => .error (.headerMalformed name)

/-- Modelled from the spec (sections 4.2 and 6): `Context::try_from`
on the response headers.  Required headers: request id, deadline
(milliseconds, numeric), invoked-function identifier; optional:
trace id, client context (JSON), identity (JSON).  A missing required
header is `HeaderError::Missing(name)`, an unparsable one
`HeaderError::Malformed(name)`.  The `env_config` field starts at the
`Default` configuration, as the loop overwrites it afterwards. -/
def Context.try_from (headers : List (String × String)) : Except RtError Context :=
  match lookupHeader headers "request-id" with
  | none => .error (.headerMissing "request-id")
  | some rid =>
    match lookupHeader headers "deadline-ms" with
    | none => .error (.headerMissing "deadline-ms")
    | some ds =>
      match strToNat ds with
      | none => .error (.headerMalformed "deadline-ms")
      | some dl =>
        match lookupHeader headers "invoked-function-arn" with
        | none => .error (.headerMissing "invoked-function-arn")
        | some arn =>
          match parseOptJsonHeader (lookupHeader headers "client-context") "client-context" with
          | .error e => .error e
          | .ok cc =>
            match parseOptJsonHeader (lookupHeader headers "identity") "identity" with
            | .error e => .error e
            | .ok idy =>
              .ok ⟨rid, dl, arn, lookupHeader headers "trace-id", cc, idy, defaultConfig⟩

/-- The assignment `ctx.env_config = ...` in `run_inner`. -/
def Context.setConfig (ctx : Context) (cfg : Config) : Context :=
  ⟨ctx.request_id, ctx.deadline, ctx.invoked_function_arn, ctx.trace_id,
    ctx.client_context, ctx.identity, cfg⟩

/-- A fetched event: the response of a poll-next request, split into
its headers and its raw body bytes (`event.into_parts()` followed by
`hyper::body::to_bytes`). -/
structure Event where
  headers : List (String × String)
  body : List Char

/-- Modelled from the spec (section 3): `Diagnostic`, the wire shape
for reporting a handler failure. -/
structure Diagnostic where
  error_message : String
  error_type : String
deriving DecidableEq

/-- A report request built by the loop: `EventCompletionRequest` on
handler success, `EventErrorRequest` on handler failure. -/
inductive Report (B : Type) where
  | success (request_id : String) (body : B)
  | failure (request_id : String) (diagnostic : Diagnostic)

/-- The request id a report is addressed with. -/
def Report.rid {B : Type} : Report B → String
  | .success r _ => r
  | .failure r _ => r

/-- Observable actions of one run of the loop: issuing a poll-next
request (the `incoming` stream), reading the process environment
(`Config::from_env`), invoking the handler, and issuing a report
request (`client.call(req)`). -/
inductive Action (B : Type) where
  | poll
  | envRead
  | invoke
  | report (r : Report B)

def Action.isPoll {B : Type} : Action B → Bool
  | .poll => true
  | _ => false

def Action.isEnvRead {B : Type} : Action B → Bool
  | .envRead => true
  | _ => false

def Action.isInvoke {B : Type} : Action B → Bool
  | .invoke => true
  | _ => false

/-- The report requests contained in a trace, in order. -/
def reportsOf {B : Type} (tr : List (Action B)) : List (Report B) :=
  tr.filterMap (fun a =>
    match a with
    | .report r => some r
    | _ => none)

/-- The ambient capabilities and type-class data `run_inner` is
instantiated with: the environment snapshot, the `Deserialize`
instance for the event type `A` (as used through
`serde_path_to_error::deserialize`), the `Debug` rendering and static
type name for the handler's error type `E`, the handler itself (a
`Handler<A, B>`), and the transport result of sending a report
request (`client.call`). -/
structure RunParams (A B E : Type) where
  env : EnvMap
  deserA : List Char → Except RtError A
  dbgFmt : E → String
  typeName : String
  handler : A → Context → Except E B
  send : Report B → Except RtError Unit

/-- The body of the `while let` loop in `run_inner` for a single
fetched event, returning the actions performed and the iteration's
result: build the context from the headers, re-read the configuration
from the environment into `ctx.env_config`, deserialize the body,
invoke the handler, build the success or error report and send it. -/
def processEvent {A B E : Type} (p : RunParams A B E) (ev : Event) :
    List (Action B) × Except RtError Unit :=
  match Context.try_from ev.headers with
  | .error e => ([], .error e)
  | .ok ctx0 =>
    match Config.from_env p.env with
    | .error e => ([.envRead], .error e)
    | .ok cfg =>
      let ctx := ctx0.setConfig cfg
      match p.deserA ev.body with
      | .error e => ([.envRead], .error e)
      | .ok a =>
        let request_id := ctx.request_id
        match p.handler a ctx with
        | .ok res =>
          let r := Report.success request_id res
          ([.envRead, .invoke, .report r], p.send r)
        | .error e =>
          let r := Report.failure request_id ⟨p.dbgFmt e, p.typeName⟩
          ([.envRead, .invoke, .report r], p.send r)

/-- `run_inner` from `lib.rs`, over a (finite prefix of the) incoming
stream of poll results.  Each element consumed corresponds to one
poll-next request issued by the `incoming` stream; a failed poll
(`event?`), a failed decode, or a failed report send ends the loop
with that error, otherwise the loop moves to the next event. -/
def run_inner {A B E : Type} (p : RunParams A B E) :
    List (Except RtError Event) → List (Action B) × Except RtError Unit
  | [] => ([], .ok ())
  | item :: rest =>
    match item with
    | .error e => ([.poll], .error e)
    | .ok ev =>
      match processEvent p ev with
      | (tr, .error e) => (.poll :: tr, .error e)
      | (tr, .ok _) =>
        let rec2 := run_inner p rest
        (.poll :: tr ++ rec2.1, rec2.2)

/-- How `run` and `run_simulated` terminate: normally, with a runtime
error, or by panicking (`.expect`). -/
inductive RunOutcome where
  | ok
  | error (e : RtError)
  | panicked (msg : String)
deriving DecidableEq

/-- `run` from `lib.rs`: load the configuration from the environment,
convert its endpoint to a URI — panicking with "Unable to convert to
URL" when the conversion fails — and drive `run_inner` over the
incoming stream.  `parseUri` stands for the external
`TryInto<http::Uri>` conversion, and `events` for the poll results the
host would deliver. -/
def run {A B E : Type} (p : RunParams A B E) (parseUri : String → Option String)
    (events : List (Except RtError Event)) : List (Action B) × RunOutcome :=
  match Config.from_env p.env with
  | .error e => ([.envRead], .error e)
  | .ok config =>
    match parseUri config.endpoint with
    | none => ([.envRead], .panicked "Unable to convert to URL")
    | some _ =>
      match run_inner p events with
      | (tr, .ok _) => (.envRead :: tr, .ok)
      | (tr, .error e) => (.envRead :: tr, .error e)

/-- `run_simulated` from `lib.rs`: convert the given url — panicking
when the conversion fails — and drive `run_inner` over
`incoming(client).take(1)`, i.e. at most one poll result. -/
def run_simulated {A B E : Type} (p : RunParams A B E) (parseUri : String → Option String)
    (url : String) (events : List (Except RtError Event)) : List (Action B) × RunOutcome :=
  match parseUri url with
  | none => ([], .panicked "Unable to convert to URL")
  | some _ =>
    match run_inner p (events.take 1) with
    | (tr, .ok _) => (tr, .ok)
    | (tr, .error e) => (tr, .error e)

/-- A transport-ready request: its path on the control endpoint and
its body bytes. -/
structure WireRequest where
  path : String
  body : List Char

/-- Modelled from the spec (sections 4.3 and 6):
`encode_poll_next()` — a read-only fetch, no body. -/
def encode_poll_next : WireRequest :=
  ⟨"/runtime/invocation/next", []⟩

/-- Modelled from the spec (sections 4.3 and 6):
`encode_report_success(request_id, payload)` — the payload serialized
to JSON, addressed to the success-report path for the request id. -/
def encode_report_success (request_id : String) (payload : Json) : WireRequest :=
  ⟨"/runtime/invocation/" ++ request_id ++ "/response", render payload⟩

/-- Modelled from the spec (sections 4.3 and 6):
`encode_report_error(request_id, diagnostic)` — the JSON object
`\x7b"errorMessage", "errorType"\x7d`, addressed to the error-report
path for the request id. -/
def encode_report_error (request_id : String) (d : Diagnostic) : WireRequest :=
  ⟨"/runtime/invocation/" ++ request_id ++ "/error",
    render (Json.obj [("errorMessage", Json.str d.error_message),
      ("errorType", Json.str d.error_type)])⟩

/-- `IntoRequest::into_req` for report requests with JSON payloads. -/
def wireOfReport : Report Json → WireRequest
  | .success rid v => encode_report_success rid v
  | .failure rid d => encode_report_error rid d

theorem try_from_request_id (headers : List (String × String)) (ctx : Context)
    (h : Context.try_from headers = .ok ctx) :
    lookupHeader headers "request-id" = some ctx.request_id := by
  unfold Context.try_from at h
  cases hrid : lookupHeader headers "request-id" with
  | none => simp only [hrid] at h; cases h
  | some rid =>
    simp only [hrid] at h
    cases hds : lookupHeader headers "deadline-ms" with
    | none => simp only [hds] at h; cases h
    | some ds =>
      simp only [hds] at h
      cases hnat : strToNat ds with
      | none => simp only [hnat] at h; cases h
      | some dl =>
        simp only [hnat] at h
        cases harn : lookupHeader headers "invoked-function-arn" with
        | none => simp only [harn] at h; cases h
        | some arn =>
          simp only [harn] at h
          cases hcc : parseOptJsonHeader (lookupHeader headers "client-context")
              "client-context" with
          | error e => simp only [hcc] at h; cases h
          | ok cc =>
            simp only [hcc] at h
            cases hid : parseOptJsonHeader (lookupHeader headers "identity") "identity" with
            | error e => simp only [hid] at h; cases h
            | ok idy =>
              simp only [hid] at h
              cases h
              rfl

theorem pe_header_err {A B E : Type} (p : RunParams A B E) (ev : Event) (e : RtError)
    (h1 : Context.try_from ev.headers = .error e) :
    processEvent p ev = ([], .error e) := by
  unfold processEvent
  simp only [h1]

theorem pe_env_err {A B E : Type} (p : RunParams A B E) (ev : Event) (ctx0 : Context)
    (e : RtError)
    (h1 : Context.try_from ev.headers = .ok ctx0)
    (h2 : Config.from_env p.env = .error e) :
    processEvent p ev = ([.envRead], .error e) := by
  unfold processEvent
  simp only [h1, h2]

theorem pe_deser_err {A B E : Type} (p : RunParams A B E) (ev : Event) (ctx0 : Context)
    (cfg : Config) (e : RtError)
    (h1 : Context.try_from ev.headers = .ok ctx0)
    (h2 : Config.from_env p.env = .ok cfg)
    (h3 : p.deserA ev.body = .error e) :
    processEvent p ev = ([.envRead], .error e) := by
  unfold processEvent
  simp only [h1, h2, h3]

theorem pe_handler_ok {A B E : Type} (p : RunParams A B E) (ev : Event) (ctx0 : Context)
    (cfg : Config) (a : A) (res : B)
    (h1 : Context.try_from ev.headers = .ok ctx0)
    (h2 : Config.from_env p.env = .ok cfg)
    (h3 : p.deserA ev.body = .ok a)
    (h4 : p.handler a (ctx0.setConfig cfg) = .ok res) :
    processEvent p ev
      = ([.envRead, .invoke, .report (.success ctx0.request_id res)],
         p.send (.success ctx0.request_id res)) := by
  unfold processEvent
  simp only [h1, h2, h3, h4]
  try rfl

theorem pe_handler_err {A B E : Type} (p : RunParams A B E) (ev : Event) (ctx0 : Context)
    (cfg : Config) (a : A) (e : E)
    (h1 : Context.try_from ev.headers = .ok ctx0)
    (h2 : Config.from_env p.env = .ok cfg)
    (h3 : p.deserA ev.body = .ok a)
    (h4 : p.handler a (ctx0.setConfig cfg) = .error e) :
    processEvent p ev
      = ([.envRead, .invoke, .report (.failure ctx0.request_id ⟨p.dbgFmt e, p.typeName⟩)],
         p.send (.failure ctx0.request_id ⟨p.dbgFmt e, p.typeName⟩)) := by
  unfold processEvent
  simp only [h1, h2, h3, h4]
  try rfl

theorem pe_no_poll {A B E : Type} (p : RunParams A B E) (ev : Event) :
    (processEvent p ev).1.countP Action.isPoll = 0 := by
  cases h1 : Context.try_from ev.headers with
  | error e => rw [pe_header_err p ev e h1]; rfl
  | ok ctx0 =>
    cases h2 : Config.from_env p.env with
    | error e => rw [pe_env_err p ev ctx0 e h1 h2]; rfl
    | ok cfg =>
      cases h3 : p.deserA ev.body with
      | error e => rw [pe_deser_err p ev ctx0 cfg e h1 h2 h3]; rfl
      | ok a =>
        cases h4 : p.handler a (ctx0.setConfig cfg) with
        | ok res => rw [pe_handler_ok p ev ctx0 cfg a res h1 h2 h3 h4]; rfl
        | error e => rw [pe_handler_err p ev ctx0 cfg a e h1 h2 h3 h4]; rfl

theorem pe_envRead_count {A B E : Type} (p : RunParams A B E) (ev : Event) (ctx0 : Context)
    (h1 : Context.try_from ev.headers = .ok ctx0) :
    (processEvent p ev).1.countP Action.isEnvRead = 1 := by
  cases h2 : Config.from_env p.env with
  | error e => rw [pe_env_err p ev ctx0 e h1 h2]; rfl
  | ok cfg =>
    cases h3 : p.deserA ev.body with
    | error e => rw [pe_deser_err p ev ctx0 cfg e h1 h2 h3]; rfl
    | ok a =>
      cases h4 : p.handler a (ctx0.setConfig cfg) with
      | ok res => rw [pe_handler_ok p ev ctx0 cfg a res h1 h2 h3 h4]; rfl
      | error e => rw [pe_handler_err p ev ctx0 cfg a e h1 h2 h3 h4]; rfl

theorem pe_reports {A B E : Type} (p : RunParams A B E) (ev : Event) (ctx0 : Context)
    (cfg : Config) (a : A)
    (h1 : Context.try_from ev.headers = .ok ctx0)
    (h2 : Config.from_env p.env = .ok cfg)
    (h3 : p.deserA ev.body = .ok a) :
    ∃ r : Report B, reportsOf (processEvent p ev).1 = [r] ∧ r.rid = ctx0.request_id := by
  cases h4 : p.handler a (ctx0.setConfig cfg) with
  | ok res =>
    refine ⟨.success ctx0.request_id res, ?_, rfl⟩
    rw [pe_handler_ok p ev ctx0 cfg a res h1 h2 h3 h4]
    rfl
  | error e =>
    refine ⟨.failure ctx0.request_id ⟨p.dbgFmt e, p.typeName⟩, ?_, rfl⟩
    rw [pe_handler_err p ev ctx0 cfg a e h1 h2 h3 h4]
    rfl

theorem ri_nil {A B E : Type} (p : RunParams A B E) :
    run_inner p [] = ([], .ok ()) := rfl

theorem ri_poll_err {A B E : Type} (p : RunParams A B E) (e : RtError)
    (rest : List (Except RtError Event)) :
    run_inner p (.error e :: rest) = ([.poll], .error e) := rfl

theorem ri_step_err {A B E : Type} (p : RunParams A B E) (ev : Event) (e : RtError)
    (rest : List (Except RtError Event))
    (h : (processEvent p ev).2 = .error e) :
    run_inner p (.ok ev :: rest) = (.poll :: (processEvent p ev).1, .error e) := by
  have hpe : processEvent p ev = ((processEvent p ev).1, .error e) := by
    rw [← h]
  rw [run_inner, hpe]

theorem ri_step_ok {A B E : Type} (p : RunParams A B E) (ev : Event)
    (rest : List (Except RtError Event))
    (h : (processEvent p ev).2 = .ok ()) :
    run_inner p (.ok ev :: rest)
      = (.poll :: (processEvent p ev).1 ++ (run_inner p rest).1, (run_inner p rest).2) := by
  have hpe : processEvent p ev = ((processEvent p ev).1, .ok ()) := by
    rw [← h]
  rw [run_inner, hpe]

/-- A fully configured environment snapshot (used by witnesses). -/
def envW : EnvMap := fun k =>
  if k = "AWS_LAMBDA_RUNTIME_API" then some "127.0.0.1:9001"
  else if k = "AWS_LAMBDA_FUNCTION_NAME" then some "test-fn"
  else if k = "AWS_LAMBDA_FUNCTION_MEMORY_SIZE" then some "128"
  else if k = "AWS_LAMBDA_FUNCTION_VERSION" then some "1"
  else none

/-- An environment snapshot missing the memory-size entry. -/
def envNoMemW : EnvMap := fun k =>
  if k = "AWS_LAMBDA_RUNTIME_API" then some "127.0.0.1:9001"
  else if k = "AWS_LAMBDA_FUNCTION_NAME" then some "test-fn"
  else if k = "AWS_LAMBDA_FUNCTION_VERSION" then some "1"
  else none

/-- The configuration that `envW` loads to. -/
def cfgW : Config := ⟨"127.0.0.1:9001", "test-fn", 128, "1", "$LATEST", "/aws/lambda/Functions"⟩

/-- JSON body deserializer used as the `Deserialize` instance in
witnesses. -/
def deserW : List Char → Except RtError Json := fun cs =>
  match deserializeJson cs with
  | some j => .ok j
  | none => .error .bodyDeserialize

/-- Headers of a well-formed event. -/
def headersW : List (String × String) :=
  [("request-id", "id-1"), ("deadline-ms", "1000"), ("invoked-function-arn", "arn:aws:test")]

/-- A well-formed event carrying the JSON body `5`. -/
def eventW : Event := ⟨headersW, ['5']⟩

/-- An event whose request-id header is missing. -/
def eventNoRidW : Event := ⟨[("deadline-ms", "1000")], ['5']⟩

/-- The context `eventW`'s headers decode to. -/
def ctxW : Context := ⟨"id-1", 1000, "arn:aws:test", none, none, none, defaultConfig⟩

/-- Echo handler, reports always delivered. -/
def paramsW : RunParams Json Json String :=
  ⟨envW, deserW, fun e => e, "core::convert::Infallible", fun a _ => .ok a, fun _ => .ok ()⟩

/-- Handler that always fails with "boom", classified "CustomError". -/
def paramsErrW : RunParams Json Json String :=
  ⟨envW, deserW, fun e => e, "CustomError", fun _ _ => .error "boom", fun _ => .ok ()⟩

/-- Echo handler, but the transport fails when a report is sent. -/
def paramsSendFailW : RunParams Json Json String :=
  ⟨envW, deserW, fun e => e, "CustomError", fun a _ => .ok a,
    fun _ => .error (.transport "connection refused")⟩

/-- A URI conversion that accepts every string. -/
def uriOkW : String → Option String := fun s => some s

/-- A URI conversion that rejects every string. -/
def uriFailW : String → Option String := fun _ => none

/-- Claim C1: for every event fetched by the runtime loop that is
successfully decoded and handled, exactly one report request (success
or error) is issued for it, addressed with the same request id that
was received in the fetched event's headers. -/
theorem C1_exactly_one_report {A B E : Type} (p : RunParams A B E) (ev : Event)
    (ctx0 : Context) (cfg : Config) (a : A)
    (h1 : Context.try_from ev.headers = .ok ctx0)
    (h2 : Config.from_env p.env = .ok cfg)
    (h3 : p.deserA ev.body = .ok a) :
    ∃ r : Report B, reportsOf (processEvent p ev).1 = [r] ∧
      r.rid = ctx0.request_id ∧
      lookupHeader ev.headers "request-id" = some ctx0.request_id := by
  obtain ⟨r, hr, hrid⟩ := pe_reports p ev ctx0 cfg a h1 h2 h3
  exact ⟨r, hr, hrid, try_from_request_id ev.headers ctx0 h1⟩

/-- Witness for C1 at a concrete event and echo handler. -/
theorem C1_witness :
    reportsOf (processEvent paramsW eventW).1 = [Report.success "id-1" (Json.num 5)]
    ∧ (Report.success "id-1" (Json.num 5)).rid = "id-1"
    ∧ lookupHeader eventW.headers "request-id" = some "id-1" := by
  obtain ⟨r, h1, h2, h3⟩ :=
    C1_exactly_one_report paramsW eventW ctxW cfgW (Json.num 5) rfl rfl rfl
  exact ⟨rfl, rfl, h3⟩

/-- Claim C2: an invocation whose handler resolves to an error does
not terminate the loop: the error is captured as a `Diagnostic`
(message plus type tag), sent via the error-report request, and the
loop proceeds with the remaining events. -/
theorem C2_handler_error_nonfatal {A B E : Type} (p : RunParams A B E) (ev : Event)
    (ctx0 : Context) (cfg : Config) (a : A) (e : E)
    (rest : List (Except RtError Event))
    (h1 : Context.try_from ev.headers = .ok ctx0)
    (h2 : Config.from_env p.env = .ok cfg)
    (h3 : p.deserA ev.body = .ok a)
    (h4 : p.handler a (ctx0.setConfig cfg) = .error e)
    (h5 : p.send (.failure ctx0.request_id ⟨p.dbgFmt e, p.typeName⟩) = .ok ()) :
    reportsOf (processEvent p ev).1
        = [.failure ctx0.request_id ⟨p.dbgFmt e, p.typeName⟩]
    ∧ run_inner p (.ok ev :: rest)
        = (.poll :: (processEvent p ev).1 ++ (run_inner p rest).1, (run_inner p rest).2) := by
  have hpe := pe_handler_err p ev ctx0 cfg a e h1 h2 h3 h4
  constructor
  · rw [hpe]
    rfl
  · apply ri_step_ok
    rw [hpe]
    exact h5

/-- Witness for C2: handler error "boom", one more (empty) tail. -/
theorem C2_witness :
    reportsOf (processEvent paramsErrW eventW).1
        = [Report.failure "id-1" ⟨"boom", "CustomError"⟩]
    ∧ run_inner paramsErrW [.ok eventW]
        = (.poll :: (processEvent paramsErrW eventW).1
              ++ (run_inner paramsErrW ([] : List (Except RtError Event))).1,
           (run_inner paramsErrW ([] : List (Except RtError Event))).2) := by
  have h := C2_handler_error_nonfatal paramsErrW eventW ctxW cfgW (Json.num 5) "boom" []
    rfl rfl rfl rfl rfl
  exact ⟨h.1, h.2⟩

/-- Claim C3: when the handler returns `Err(e)`, the error report
carries `errorMessage` equal to the `Debug` rendering of `e` and
`errorType` equal to its static type name, and its wire body encodes
exactly that object. -/
theorem C3_diagnostic_content {A B E : Type} (p : RunParams A B E) (ev : Event)
    (ctx0 : Context) (cfg : Config) (a : A) (e : E)
    (h1 : Context.try_from ev.headers = .ok ctx0)
    (h2 : Config.from_env p.env = .ok cfg)
    (h3 : p.deserA ev.body = .ok a)
    (h4 : p.handler a (ctx0.setConfig cfg) = .error e) :
    reportsOf (processEvent p ev).1
        = [.failure ctx0.request_id ⟨p.dbgFmt e, p.typeName⟩]
    ∧ deserializeJson (encode_report_error ctx0.request_id ⟨p.dbgFmt e, p.typeName⟩).body
        = some (Json.obj [("errorMessage", Json.str (p.dbgFmt e)),
            ("errorType", Json.str p.typeName)]) := by
  constructor
  · rw [pe_handler_err p ev ctx0 cfg a e h1 h2 h3 h4]
    rfl
  · exact deserializeJson_render _

/-- Witness for C3 at the "boom"/"CustomError" handler. -/
theorem C3_witness :
    reportsOf (processEvent paramsErrW eventW).1
        = [Report.failure "id-1" ⟨"boom", "CustomError"⟩]
    ∧ deserializeJson (encode_report_error "id-1" ⟨"boom", "CustomError"⟩).body
        = some (Json.obj [("errorMessage", Json.str "boom"),
            ("errorType", Json.str "CustomError")]) := by
  have h := C3_diagnostic_content paramsErrW eventW ctxW cfgW (Json.num 5) "boom"
    rfl rfl rfl rfl
  exact ⟨h.1, h.2⟩

/-- Counterexample to claim C4 as stated: with a fully configured
environment and one successfully handled event, the loop body itself
reads the process environment (the `ctx.env_config = Config::from_env()?`
assignment runs on every iteration), so the iteration's trace contains
an environment read and the whole run reads the environment twice,
not exactly once. -/
theorem C4_counterexample :
    (run_inner paramsW [.ok eventW]).1.countP Action.isEnvRead = 1
    ∧ (run paramsW uriOkW [.ok eventW]).1.countP Action.isEnvRead = 2
    ∧ ¬ ((run paramsW uriOkW [.ok eventW]).1.countP Action.isEnvRead ≤ 1) := by
  exact ⟨rfl, rfl, by decide⟩

/-- Claim C4 (amended): the `Config` is loaded from the environment at
startup before the loop is entered, and, in addition, every loop
iteration whose headers decode successfully re-reads the environment
exactly once to rebuild the `Config` stored into the context's
`env_config` field. -/
theorem C4_amended {A B E : Type} (p : RunParams A B E) (ev : Event) (ctx0 : Context)
    (pu : String → Option String) (events : List (Except RtError Event))
    (h1 : Context.try_from ev.headers = .ok ctx0) :
    (processEvent p ev).1.countP Action.isEnvRead = 1
    ∧ (run p pu events).1.head? = some Action.envRead := by
  constructor
  · exact pe_envRead_count p ev ctx0 h1
  · unfold run
    cases h : Config.from_env p.env with
    | error e => simp only [h]; rfl
    | ok cfg =>
      simp only [h]
      cases hu : pu cfg.endpoint with
      | none => simp only [hu]; rfl
      | some u =>
        simp only [hu]
        cases hri : run_inner p events with
        | mk tr res =>
          cases res with
          | ok u2 => rfl
          | error e => rfl

/-- Witness for the amended C4. -/
theorem C4_witness :
    (processEvent paramsW eventW).1.countP Action.isEnvRead = 1
    ∧ (run paramsW uriOkW [.ok eventW]).1.head? = some Action.envRead := by
  have h := C4_amended paramsW eventW ctxW uriOkW [.ok eventW] rfl
  exact ⟨h.1, h.2⟩

/-- Claim C5: a transport failure while polling, any failure while
decoding the fetched event, or a transport failure while reporting
terminates the loop with that error: the remaining events are not
processed and only the one poll for the failing iteration is issued
(no retry). -/
theorem C5_fatal_errors {A B E : Type} (p : RunParams A B E) (ev : Event) (e : RtError)
    (rest : List (Except RtError Event)) :
    run_inner p (.error e :: rest) = ([.poll], .error e)
    ∧ ((processEvent p ev).2 = .error e →
        run_inner p (.ok ev :: rest) = (.poll :: (processEvent p ev).1, .error e)
        ∧ (.poll :: (processEvent p ev).1).countP Action.isPoll = 1) := by
  refine ⟨ri_poll_err p e rest, fun h => ⟨ri_step_err p ev e rest h, ?_⟩⟩
  rw [List.countP_cons, pe_no_poll p ev]
  rfl

/-- Witness for C5: a poll failure, a header-decode failure, and a
report-transport failure, each ending the loop. -/
theorem C5_witness :
    run_inner paramsW [Except.error (RtError.transport "recv"), .ok eventW]
        = ([.poll], .error (.transport "recv"))
    ∧ run_inner paramsW [.ok eventNoRidW]
        = (.poll :: (processEvent paramsW eventNoRidW).1,
           .error (.headerMissing "request-id"))
    ∧ run_inner paramsSendFailW [.ok eventW]
        = (.poll :: (processEvent paramsSendFailW eventW).1,
           .error (.transport "connection refused")) := by
  have hA := (C5_fatal_errors paramsW eventW (.transport "recv") [.ok eventW]).1
  have hB := ((C5_fatal_errors paramsW eventNoRidW (.headerMissing "request-id")
    ([] : List (Except RtError Event))).2 rfl).1
  have hC := ((C5_fatal_errors paramsSendFailW eventW (.transport "connection refused")
    ([] : List (Except RtError Event))).2 rfl).1
  exact ⟨hA, hB, hC⟩

/-- Claim C6: when the handler returns `Ok(v)`, the iteration issues
exactly the success report for `v`, and the body of that report
request deserializes from the wire format back to a value structurally
equal to `v`. -/
theorem C6_success_roundtrip {A E : Type} (p : RunParams A Json E) (ev : Event)
    (ctx0 : Context) (cfg : Config) (a : A) (res : Json)
    (h1 : Context.try_from ev.headers = .ok ctx0)
    (h2 : Config.from_env p.env = .ok cfg)
    (h3 : p.deserA ev.body = .ok a)
    (h4 : p.handler a (ctx0.setConfig cfg) = .ok res) :
    reportsOf (processEvent p ev).1 = [.success ctx0.request_id res]
    ∧ deserializeJson (wireOfReport (.success ctx0.request_id res)).body = some res := by
  constructor
  · rw [pe_handler_ok p ev ctx0 cfg a res h1 h2 h3 h4]
    rfl
  · exact deserializeJson_render res

/-- Witness for C6 at the echo handler and body `5`. -/
theorem C6_witness :
    reportsOf (processEvent paramsW eventW).1 = [Report.success "id-1" (Json.num 5)]
    ∧ deserializeJson (wireOfReport (Report.success "id-1" (Json.num 5))).body
        = some (Json.num 5) := by
  have h := C6_success_roundtrip paramsW eventW ctxW cfgW (Json.num 5) (Json.num 5)
    rfl rfl rfl rfl
  exact ⟨h.1, h.2⟩

theorem fe_no_endpoint (env : EnvMap)
    (h1 : env "AWS_LAMBDA_RUNTIME_API" = none) :
    Config.from_env env = .error (.varNotPresent "AWS_LAMBDA_RUNTIME_API") := by
  unfold Config.from_env
  simp only [h1]

theorem fe_no_name (env : EnvMap) (endpoint : String)
    (h1 : env "AWS_LAMBDA_RUNTIME_API" = some endpoint)
    (h2 : env "AWS_LAMBDA_FUNCTION_NAME" = none) :
    Config.from_env env = .error (.varNotPresent "AWS_LAMBDA_FUNCTION_NAME") := by
  unfold Config.from_env
  simp only [h1, h2]

theorem fe_no_mem (env : EnvMap) (endpoint function_name : String)
    (h1 : env "AWS_LAMBDA_RUNTIME_API" = some endpoint)
    (h2 : env "AWS_LAMBDA_FUNCTION_NAME" = some function_name)
    (h3 : env "AWS_LAMBDA_FUNCTION_MEMORY_SIZE" = none) :
    Config.from_env env = .error (.varNotPresent "AWS_LAMBDA_FUNCTION_MEMORY_SIZE") := by
  unfold Config.from_env
  simp only [h1, h2, h3]

theorem fe_bad_mem (env : EnvMap) (endpoint function_name memStr : String)
    (h1 : env "AWS_LAMBDA_RUNTIME_API" = some endpoint)
    (h2 : env "AWS_LAMBDA_FUNCTION_NAME" = some function_name)
    (h3 : env "AWS_LAMBDA_FUNCTION_MEMORY_SIZE" = some memStr)
    (h4 : parseI32 memStr = none) :
    Config.from_env env = .error (.intParse memStr) := by
  unfold Config.from_env
  simp only [h1, h2, h3, h4]

theorem fe_no_version (env : EnvMap) (endpoint function_name memStr : String) (memory : Int)
    (h1 : env "AWS_LAMBDA_RUNTIME_API" = some endpoint)
    (h2 : env "AWS_LAMBDA_FUNCTION_NAME" = some function_name)
    (h3 : env "AWS_LAMBDA_FUNCTION_MEMORY_SIZE" = some memStr)
    (h4 : parseI32 memStr = some memory)
    (h5 : env "AWS_LAMBDA_FUNCTION_VERSION" = none) :
    Config.from_env env = .error (.varNotPresent "AWS_LAMBDA_FUNCTION_VERSION") := by
  unfold Config.from_env
  simp only [h1, h2, h3, h4, h5]

theorem fe_ok (env : EnvMap) (endpoint function_name memStr version : String) (memory : Int)
    (h1 : env "AWS_LAMBDA_RUNTIME_API" = some endpoint)
    (h2 : env "AWS_LAMBDA_FUNCTION_NAME" = some function_name)
    (h3 : env "AWS_LAMBDA_FUNCTION_MEMORY_SIZE" = some memStr)
    (h4 : parseI32 memStr = some memory)
    (h5 : env "AWS_LAMBDA_FUNCTION_VERSION" = some version) :
    Config.from_env env
      = .ok ⟨endpoint, function_name, memory, version,
          (env "AWS_LAMBDA_LOG_STREAM_NAME").getD DEFAULT_LOG_STREAM,
          (env "AWS_LAMBDA_LOG_GROUP_NAME").getD DEFAULT_LOG_GROUP⟩ := by
  unfold Config.from_env
  simp only [h1, h2, h3, h4, h5]

/-- Claim C7: `Config::from_env` succeeds exactly when the four
required environment entries are present and the memory size parses as
an `i32` (otherwise it returns an error, never a partial or defaulted
`Config`), while the log-stream and log-group entries only fill in
their defaults and never cause failure. -/
theorem C7_config_loading (env : EnvMap) :
    ((∃ cfg, Config.from_env env = .ok cfg)
      ↔ ((env "AWS_LAMBDA_RUNTIME_API").isSome
          ∧ (env "AWS_LAMBDA_FUNCTION_NAME").isSome
          ∧ (∃ m, env "AWS_LAMBDA_FUNCTION_MEMORY_SIZE" = some m ∧ (parseI32 m).isSome)
          ∧ (env "AWS_LAMBDA_FUNCTION_VERSION").isSome))
    ∧ (∀ cfg, Config.from_env env = .ok cfg →
        cfg.log_stream = (env "AWS_LAMBDA_LOG_STREAM_NAME").getD DEFAULT_LOG_STREAM
        ∧ cfg.log_group = (env "AWS_LAMBDA_LOG_GROUP_NAME").getD DEFAULT_LOG_GROUP) := by
  cases h1 : env "AWS_LAMBDA_RUNTIME_API" with
  | none =>
    have hfe := fe_no_endpoint env h1
    refine ⟨⟨fun hex => ?_, fun hall => ?_⟩, fun cfg hc => ?_⟩
    · obtain ⟨cfg, hc⟩ := hex
      rw [hfe] at hc
      cases hc
    · obtain ⟨ha, _⟩ := hall
      exact absurd ha (by decide)
    · rw [hfe] at hc
      cases hc
  | some endpoint =>
    cases h2 : env "AWS_LAMBDA_FUNCTION_NAME" with
    | none =>
      have hfe := fe_no_name env endpoint h1 h2
      refine ⟨⟨fun hex => ?_, fun hall => ?_⟩, fun cfg hc => ?_⟩
      · obtain ⟨cfg, hc⟩ := hex
        rw [hfe] at hc
        cases hc
      · obtain ⟨_, hb, _⟩ := hall
        exact absurd hb (by decide)
      · rw [hfe] at hc
        cases hc
    | some function_name =>
      cases h3 : env "AWS_LAMBDA_FUNCTION_MEMORY_SIZE" with
      | none =>
        have hfe := fe_no_mem env endpoint function_name h1 h2 h3
        refine ⟨⟨fun hex => ?_, fun hall => ?_⟩, fun cfg hc => ?_⟩
        · obtain ⟨cfg, hc⟩ := hex
          rw [hfe] at hc
          cases hc
        · obtain ⟨_, _, ⟨m, hm, _⟩, _⟩ := hall
          cases hm
        · rw [hfe] at hc
          cases hc
      | some memStr =>
        cases h4 : parseI32 memStr with
        | none =>
          have hfe := fe_bad_mem env endpoint function_name memStr h1 h2 h3 h4
          refine ⟨⟨fun hex => ?_, fun hall => ?_⟩, fun cfg hc => ?_⟩
          · obtain ⟨cfg, hc⟩ := hex
            rw [hfe] at hc
            cases hc
          · obtain ⟨_, _, ⟨m, hm, hps⟩, _⟩ := hall
            cases hm
            rw [h4] at hps
            cases hps
          · rw [hfe] at hc
            cases hc
        | some memory =>
          cases h5 : env "AWS_LAMBDA_FUNCTION_VERSION" with
          | none =>
            have hfe := fe_no_version env endpoint function_name memStr memory h1 h2 h3 h4 h5
            refine ⟨⟨fun hex => ?_, fun hall => ?_⟩, fun cfg hc => ?_⟩
            · obtain ⟨cfg, hc⟩ := hex
              rw [hfe] at hc
              cases hc
            · obtain ⟨_, _, _, hd⟩ := hall
              exact absurd hd (by decide)
            · rw [hfe] at hc
              cases hc
          | some version =>
            have hfe := fe_ok env endpoint function_name memStr version memory h1 h2 h3 h4 h5
            refine ⟨⟨fun _ => ?_, fun _ => ?_⟩, fun cfg hc => ?_⟩
            · exact ⟨rfl, rfl, ⟨memStr, rfl, by rw [h4]; rfl⟩, rfl⟩
            · exact ⟨_, hfe⟩
            · rw [hfe] at hc
              cases hc
              exact ⟨rfl, rfl⟩

/-- Witness for C7: a fully configured environment loads with the log
defaults; removing the memory entry makes loading fail. -/
theorem C7_witness :
    Config.from_env envW = .ok cfgW
    ∧ cfgW.log_stream = "$LATEST"
    ∧ cfgW.log_group = "/aws/lambda/Functions"
    ∧ ¬ (∃ cfg, Config.from_env envNoMemW = .ok cfg) := by
  have h := (C7_config_loading envW).2 cfgW rfl
  have h3 := (C7_config_loading envNoMemW).1
  refine ⟨rfl, h.1, h.2, ?_⟩
  intro hex
  obtain ⟨_, _, ⟨m, hm, _⟩, _⟩ := h3.mp hex
  have hnone : envNoMemW "AWS_LAMBDA_FUNCTION_MEMORY_SIZE" = none := rfl
  rw [hnone] at hm
  cases hm

/-- Claim C8: in simulated mode with exactly one available event that
decodes, handles and reports successfully, the loop processes it,
issues its report, and returns successfully after exactly one
poll-next request. -/
theorem C8_simulated_one_event {A B E : Type} (p : RunParams A B E)
    (pu : String → Option String) (url u : String) (ev : Event)
    (ctx0 : Context) (cfg : Config) (a : A)
    (hu : pu url = some u)
    (h1 : Context.try_from ev.headers = .ok ctx0)
    (h2 : Config.from_env p.env = .ok cfg)
    (h3 : p.deserA ev.body = .ok a)
    (hok : (processEvent p ev).2 = .ok ()) :
    run_simulated p pu url [.ok ev] = (.poll :: (processEvent p ev).1, .ok)
    ∧ (.poll :: (processEvent p ev).1).countP Action.isPoll = 1
    ∧ (reportsOf (processEvent p ev).1).length = 1 := by
  refine ⟨?_, ?_, ?_⟩
  · unfold run_simulated
    simp only [hu]
    have ht : run_inner p (([Except.ok ev] : List (Except RtError Event)).take 1)
        = run_inner p [.ok ev] := rfl
    rw [ht, ri_step_ok p ev [] hok, ri_nil]
    simp
  · rw [List.countP_cons, pe_no_poll p ev]
    rfl
  · obtain ⟨r, hr, _⟩ := pe_reports p ev ctx0 cfg a h1 h2 h3
    rw [hr]
    rfl

/-- Witness for C8 at the echo handler. -/
theorem C8_witness :
    run_simulated paramsW uriOkW "http://localhost:9000" [.ok eventW]
        = (.poll :: (processEvent paramsW eventW).1, .ok)
    ∧ (.poll :: (processEvent paramsW eventW).1).countP Action.isPoll = 1
    ∧ (reportsOf (processEvent paramsW eventW).1).length = 1 :=
  C8_simulated_one_event paramsW uriOkW "http://localhost:9000" "http://localhost:9000"
    eventW ctxW cfgW (Json.num 5) rfl rfl rfl rfl rfl

/-- Claim C9: when decoding a fetched event fails (missing or
malformed required header, failed config read during context
construction, or a body that does not deserialize), the handler is
never invoked, no report of either kind is issued for that event, and
the loop returns the error. -/
theorem C9_decode_failure_no_invoke {A B E : Type} (p : RunParams A B E) (ev : Event)
    (rest : List (Except RtError Event))
    (h : (∃ e, Context.try_from ev.headers = .error e)
      ∨ (∃ ctx0 e, Context.try_from ev.headers = .ok ctx0
          ∧ Config.from_env p.env = .error e)
      ∨ (∃ ctx0 cfg e, Context.try_from ev.headers = .ok ctx0
          ∧ Config.from_env p.env = .ok cfg ∧ p.deserA ev.body = .error e)) :
    (processEvent p ev).1.countP Action.isInvoke = 0
    ∧ reportsOf (processEvent p ev).1 = []
    ∧ ∃ e, (processEvent p ev).2 = .error e
        ∧ run_inner p (.ok ev :: rest) = (.poll :: (processEvent p ev).1, .error e) := by
  rcases h with ⟨e, h1⟩ | ⟨ctx0, e, h1, h2⟩ | ⟨ctx0, cfg, e, h1, h2, h3⟩
  · have hpe := pe_header_err p ev e h1
    refine ⟨?_, ?_, e, ?_, ?_⟩
    · rw [hpe]
      rfl
    · rw [hpe]
      rfl
    · rw [hpe]
    · exact ri_step_err p ev e rest (by rw [hpe])
  · have hpe := pe_env_err p ev ctx0 e h1 h2
    refine ⟨?_, ?_, e, ?_, ?_⟩
    · rw [hpe]
      rfl
    · rw [hpe]
      rfl
    · rw [hpe]
    · exact ri_step_err p ev e rest (by rw [hpe])
  · have hpe := pe_deser_err p ev ctx0 cfg e h1 h2 h3
    refine ⟨?_, ?_, e, ?_, ?_⟩
    · rw [hpe]
      rfl
    · rw [hpe]
      rfl
    · rw [hpe]
    · exact ri_step_err p ev e rest (by rw [hpe])

/-- Witness for C9 at an event with no request-id header. -/
theorem C9_witness :
    (processEvent paramsW eventNoRidW).1.countP Action.isInvoke = 0
    ∧ reportsOf (processEvent paramsW eventNoRidW).1 = []
    ∧ (processEvent paramsW eventNoRidW).2 = .error (.headerMissing "request-id")
    ∧ run_inner paramsW [.ok eventNoRidW]
        = (.poll :: (processEvent paramsW eventNoRidW).1,
           .error (.headerMissing "request-id")) := by
  have h := C9_decode_failure_no_invoke paramsW eventNoRidW []
    (Or.inl ⟨.headerMissing "request-id", rfl⟩)
  exact ⟨h.1, h.2.1, rfl, rfl⟩

/-- Claim C10: when the endpoint string (from the environment for
`run`, or the url argument for `run_simulated`) cannot be converted to
a URI, `run` and `run_simulated` panic with "Unable to convert to URL"
instead of returning an `Err`, so this failure never surfaces through
their `Result` value. -/
theorem C10_bad_uri_panics {A B E : Type} (p : RunParams A B E)
    (pu : String → Option String) (url : String)
    (events : List (Except RtError Event)) (cfg : Config)
    (h1 : Config.from_env p.env = .ok cfg)
    (h2 : pu cfg.endpoint = none)
    (h3 : pu url = none) :
    (run p pu events).2 = .panicked "Unable to convert to URL"
    ∧ (∀ e, (run p pu events).2 ≠ .error e)
    ∧ (run_simulated p pu url events).2 = .panicked "Unable to convert to URL"
    ∧ (∀ e, (run_simulated p pu url events).2 ≠ .error e) := by
  have hr : run p pu events = ([.envRead], .panicked "Unable to convert to URL") := by
    unfold run
    simp only [h1, h2]
  have hs : run_simulated p pu url events = ([], .panicked "Unable to convert to URL") := by
    unfold run_simulated
    simp only [h3]
  rw [hr, hs]
  refine ⟨rfl, ?_, rfl, ?_⟩ <;> intro e h <;> cases h

/-- Witness for C10 at a URI conversion that always fails. -/
theorem C10_witness :
    (run paramsW uriFailW ([] : List (Except RtError Event))).2
        = .panicked "Unable to convert to URL"
    ∧ (run_simulated paramsW uriFailW "1%:" ([] : List (Except RtError Event))).2
        = .panicked "Unable to convert to URL"
    ∧ (run paramsW uriFailW ([] : List (Except RtError Event))).2
        ≠ .error (.transport "x") := by
  have h := C10_bad_uri_panics paramsW uriFailW "1%:" [] cfgW rfl rfl rfl
  exact ⟨h.1, h.2.2.1, h.2.1 (.transport "x")⟩

end LambdaRt
